import Mathlib

/-!
Verification development for the kilo-openai-proxy server (`server.js`, current
revision) and its request sanitizer (`tools/kilo_sanitizer.mjs`).

The JavaScript source is shallowly embedded: texts are `List Char`, machine
time is `Nat` milliseconds, each polling loop is driven by an explicit trace of
timed Surface snapshots, and fallible operations return `Except`/sum types.
All definitions are translated from the source file, keeping the source's
names where Lean allows it.
-/

namespace KiloProxy

/-! ## Character classes and string helpers (JS semantics) -/

/-- JS regex `\\s` / `String.prototype.trim` whitespace class. -/
def isJsSpace (c : Char) : Bool :=
  c = ' ' || c = '\t' || c = '\n' || c = '\r' || c = '\x0b' || c = '\x0c' ||
  c = '\u00A0' || c = '\u1680' || ('\u2000' ≤ c && c ≤ '\u200A') ||
  c = '\u2028' || c = '\u2029' || c = '\u202F' || c = '\u205F' ||
  c = '\u3000' || c = '\uFEFF'

/-- JS regex line terminators (what `.` does not match without the `s` flag). -/
def isLineTerm (c : Char) : Bool :=
  c = '\n' || c = '\r' || c = '\u2028' || c = '\u2029'

/-- JS regex `\w`: ASCII letters, digits and underscore. -/
def isWordChar (c : Char) : Bool :=
  ('A' ≤ c && c ≤ 'Z') || ('a' ≤ c && c ≤ 'z') || ('0' ≤ c && c ≤ '9') || c = '_'

/-- `String.prototype.trim`. -/
def jsTrim (l : List Char) : List Char :=
  ((l.dropWhile isJsSpace).reverse.dropWhile isJsSpace).reverse

/-- ASCII lowercasing, the effect of the regex `i` flag on our patterns. -/
def lowerStr (l : List Char) : List Char := l.map Char.toLower

/-- Does `p` occur at the start of `s` (exact chars)? -/
def startsWithLit : List Char → List Char → Bool
  | [], _ => true
  | _ :: _, [] => false
  | p :: ps, c :: cs => p = c && startsWithLit ps cs

/-- `String.prototype.includes`: does `pat` occur anywhere in `s`? -/
def containsSub (pat : List Char) : List Char → Bool
  | [] => startsWithLit pat []
  | c :: t => startsWithLit pat (c :: t) || containsSub pat t

/-- Case-insensitively strip the literal `pat` (given lowercased) off the
front of `l`, returning the remainder on success. -/
def ciStripLit : List Char → List Char → Option (List Char)
  | [], l => some l
  | _ :: _, [] => none
  | p :: ps, c :: cs => if c.toLower = p then ciStripLit ps cs else none

/-- Greedily drop regex `\s*`. -/
def dropWs (l : List Char) : List Char := l.dropWhile isJsSpace

/-- Does `f` hold of some suffix of the list (i.e. does the pattern match at
some position)? -/
def anyPos (f : List Char → Bool) : List Char → Bool
  | [] => f []
  | l@(_ :: t) => f l || anyPos f t

/-- First defined value of `f` over the suffixes of the list (leftmost regex
match). -/
def firstPos {α : Type} (f : List Char → Option α) : List Char → Option α
  | [] => f []
  | l@(_ :: t) =>
    match f l with
    | some a => some a
    | none => firstPos f t

/-! ## Word-boundary regex machinery

The capture filters in `server.js` use global replaces of the shape
`/\b(alt1|alt2|...)\b/gi`.  A JS word boundary `\b` holds at a position iff
exactly one of the neighbouring characters is a `\w` character (a position
outside the string counts as non-word). -/

def optWord : Option Char → Bool
  | none => false
  | some c => isWordChar c

/-- `\b` between an optional left neighbour and an optional right neighbour. -/
def wordBoundary (a b : Option Char) : Bool := optWord a != optWord b

/-- Match a case-insensitive literal alternative followed by `\b`.
`lastC` is the (lowercased) final character of the literal, used for the
trailing boundary test and as the new left context.  Returns the new left
context and the rest of the subject. -/
def litAlt (pat : List Char) (lastC : Char) (l : List Char) :
    Option (Char × List Char) :=
  match ciStripLit pat l with
  | some rest => if wordBoundary (some lastC) rest.head? then some (lastC, rest) else none
  | none => none

/-- Lazy `.*?` (no `s` flag: stops at line terminators) up to the first
position where `\b` holds.  `prev` is the character to the left. -/
def lazyToBoundary : Char → List Char → Option (Char × List Char)
  | prev, [] => if wordBoundary (some prev) none then some (prev, []) else none
  | prev, c :: t =>
    if wordBoundary (some prev) (some c) then some (prev, c :: t)
    else if isLineTerm c then none else lazyToBoundary c t

/-- One global-replace pass: at each position try `alts` (which must consume at
least one character on success); on a match drop the matched characters and
continue after them, otherwise keep the character.  `fuel` bounds the
recursion; it is always called with more fuel than the subject's length, and
`alts` always consumes, so the fuel never runs out. -/
def replaceScan (alts : Option Char → List Char → Option (Char × List Char)) :
    Nat → Option Char → List Char → List Char
  | 0, _, l => l
  | _ + 1, _, [] => []
  | fuel + 1, prev, c :: cs =>
    match alts prev (c :: cs) with
    | some (pch, rest) => replaceScan alts fuel (some pch) rest
    | none => c :: replaceScan alts fuel (some c) cs

/-- Alternatives of the streaming filter regex
`/\b(Gemini is typing|Gemini replied|正在输入.*?)\b/gi`
(`server.js`, `readAnswerInChunks`). -/
def chunkAlts (prev : Option Char) (l : List Char) : Option (Char × List Char) :=
  if wordBoundary prev l.head? = false then none
  else
    match litAlt "gemini is typing".data 'g' l with
    | some r => some r
    | none =>
      match litAlt "gemini replied".data 'd' l with
      | some r => some r
      | none =>
        match ciStripLit "正在输入".data l with
        | some rest => lazyToBoundary '入' rest
        | none => none

/-- Alternatives of the aggregate filter regex
`/\b(Gemini is typing|Gemini replied|正在输入|思考中|生成中|加载中)\b/gi`
(`server.js`, `waitForFinalAnswer`). -/
def finalAlts (prev : Option Char) (l : List Char) : Option (Char × List Char) :=
  if wordBoundary prev l.head? = false then none
  else
    match litAlt "gemini is typing".data 'g' l with
    | some r => some r
    | none =>
      match litAlt "gemini replied".data 'd' l with
      | some r => some r
      | none =>
        match litAlt "正在输入".data '入' l with
        | some r => some r
        | none =>
          match litAlt "思考中".data '中' l with
          | some r => some r
          | none =>
            match litAlt "生成中".data '中' l with
            | some r => some r
            | none => litAlt "加载中".data '中' l

/-- `raw.replace(/\b(Gemini is typing|Gemini replied|正在输入.*?)\b/gi, '')`. -/
def stripChunkNoise (l : List Char) : List Char :=
  replaceScan chunkAlts (l.length + 1) none l

/-- `(text||'').replace(/\b(Gemini is typing|Gemini replied|正在输入|思考中|生成中|加载中)\b/gi, '')`. -/
def stripFinalNoise (l : List Char) : List Char :=
  replaceScan finalAlts (l.length + 1) none l

/-- Filtered text of one streaming poll (`readAnswerInChunks` line
`const cur = raw.replace(...).trim()`). -/
def cleanChunk (raw : List Char) : List Char := jsTrim (stripChunkNoise raw)

/-- Filtered text of one aggregate poll (`waitForFinalAnswer` line
`const clean = (text || '').replace(...).trim()`). -/
def cleanFinal (raw : List Char) : List Char := jsTrim (stripFinalNoise raw)

/-! ## `isPlaceholderText` (server.js) -/

def placeholderStrings : List (List Char) :=
  ["Gemini is typing".data, "Gemini replied".data,
   "正在输入".data, "正在思考".data, "思考中".data, "生成中".data, "加载中".data]

/-- Character class of `/^[.…\s]+$/`. -/
def isEllipsisOrSpaceChar (c : Char) : Bool :=
  c = '.' || c = '\u2026' || isJsSpace c

/-- `isPlaceholderText` from `server.js`: empty text is a placeholder, and so
is any trimmed text that is purely dots/ellipsis/whitespace, or that contains
one of the known placeholder substrings. -/
def isPlaceholderText (t : List Char) : Bool :=
  if t = [] then true
  else
    let s := jsTrim t
    let onlyEllipsisOrSpace := s ≠ [] && s.all isEllipsisOrSpaceChar
    onlyEllipsisOrSpace || placeholderStrings.any (fun p => containsSub p s)

example : cleanChunk "OK.".data = "OK.".data := by decide
example : cleanChunk "OK".data = "OK".data := by decide
example : isPlaceholderText "OK.".data = false := by decide
example : isPlaceholderText "...".data = true := by decide
example : isPlaceholderText "".data = true := by decide
example : cleanChunk "Gemini is typing Hello".data = "Hello".data := by decide
example : cleanFinal "Hello!!".data = "Hello!!".data := by decide

/-! ## Surface model and `getBubbleState` / `grabAnswerText` (server.js)

A `Segment` abstracts one visible reply bubble: `text` is the bubble's DOM
text (`innerText`), `spinning` whether a visible spinner node is present
inside it.  A Surface snapshot is the ordered list of visible bubbles; it is
re-read on every poll. -/

structure Segment where
  text : List Char
  spinning : Bool
  deriving DecidableEq, Repr

structure BubbleState where
  hasBubble : Bool
  text : List Char
  spinning : Bool
  deriving DecidableEq, Repr

/-- `getBubbleState(baselineCount)`: if no more than `base` bubbles are
visible, report nothing; otherwise read the trimmed text and spinner flag of
the most recent bubble. -/
def getBubbleState (segs : List Segment) (base : Nat) : BubbleState :=
  if segs.length ≤ base then ⟨false, [], false⟩
  else
    match segs.getLast? with
    | some lastSeg => ⟨true, jsTrim lastSeg.text, lastSeg.spinning⟩
    | none => ⟨false, [], false⟩

/-- `grabAnswerText(baselineCount)`: `st.text || ''`. -/
def grabAnswerText (segs : List Segment) (base : Nat) : List Char :=
  (getBubbleState segs base).text

/-! ## Answer Capture Engine (server.js)

Both polling loops are embedded as recursion over a trace of timed Surface
snapshots: the list enumerates the polls the loop performs, in order, each
with the `Date.now()` value at that iteration.  An exhausted trace models the
wall clock passing `MAX_ANSWER_MS` (the loop in the source only ends by its
`break`s/`return`s or by the time bound). -/

/-- The configuration fields the capture engine reads (`CFG` in server.js). -/
structure Cfg where
  MAX_ANSWER_MS : Nat
  STABLE_MS : Nat
  deriving DecidableEq, Repr

/-- `.env` defaults: `MAX_ANSWER_MS=60000`, `STABLE_MS=1200`. -/
def defaultCfg : Cfg := ⟨60000, 1200⟩

/-- Mutable state of `readAnswerInChunks`: `last` (text yielded so far),
`lastChangeAt`, plus the list of deltas yielded so far. -/
structure ChunkSt where
  last : List Char
  lastChangeAt : Nat
  out : List (List Char)
  deriving DecidableEq, Repr

/-- One iteration of the `readAnswerInChunks` polling loop at time `t`.
Returns the new state and whether the loop `break`s (the stability exit).
Note the source: when `grabAnswerText` is empty the iteration `continue`s,
skipping the stability check. -/
def chunkStep (cfg : Cfg) (baseline : Nat) (t : Nat) (snap : List Segment)
    (s : ChunkSt) : ChunkSt × Bool :=
  let raw := grabAnswerText snap baseline
  if raw = [] then (s, false)
  else
    let cur := cleanChunk raw
    let s' :=
      if cur ≠ [] ∧ isPlaceholderText cur = false ∧ cur ≠ s.last then
        let delta := cur.drop s.last.length
        if delta ≠ [] then { last := cur, lastChangeAt := t, out := s.out ++ [delta] }
        else s
      else s
    (s', s'.last ≠ [] && decide (cfg.STABLE_MS ≤ t - s'.lastChangeAt))

/-- How a capture loop run ended. -/
inductive ChunkExit
  | stableBreak
  | timedOut
  | outOfPolls
  deriving DecidableEq, Repr

/-- The `while (Date.now() - t0 < CFG.MAX_ANSWER_MS)` loop of
`readAnswerInChunks`. -/
def chunkLoop (cfg : Cfg) (baseline : Nat) (t0 : Nat) :
    List (Nat × List Segment) → ChunkSt → ChunkSt × ChunkExit
  | [], s => (s, .outOfPolls)
  | (t, snap) :: rest, s =>
    if t - t0 < cfg.MAX_ANSWER_MS then
      match chunkStep cfg baseline t snap s with
      | (s', true) => (s', .stableBreak)
      | (s', false) => chunkLoop cfg baseline t0 rest s'
    else (s, .timedOut)

/-- `readAnswerInChunks(baselineCount)`: run the polling loop, then perform
the one final read and yield any remaining suffix.  Returns the full delta
sequence together with the loop's final state and exit kind. -/
def readAnswerInChunks (cfg : Cfg) (baseline : Nat) (t0 : Nat)
    (polls : List (Nat × List Segment)) (finalSnap : List Segment) :
    List (List Char) × ChunkSt × ChunkExit :=
  let r := chunkLoop cfg baseline t0 polls ⟨[], t0, []⟩
  let s := r.1
  let finalClean := cleanChunk (grabAnswerText finalSnap baseline)
  let out :=
    if finalClean ≠ [] ∧ s.last.length < finalClean.length then
      s.out ++ [finalClean.drop s.last.length]
    else s.out
  (out, s, r.2)

/-- Mutable state of `waitForFinalAnswer`. -/
structure FinalSt where
  lastText : List Char
  lastChangeAt : Nat
  everHadText : Bool
  deriving DecidableEq, Repr

/-- How one `waitForFinalAnswer` iteration ends, when it ends the loop. -/
inductive FinalExit
  | shortReply
  | stable
  | timedOut
  | outOfPolls
  deriving DecidableEq, Repr

inductive FinalStepRes
  | cont (s : FinalSt)
  | done (s : FinalSt) (ex : FinalExit)
  deriving DecidableEq, Repr

/-- One iteration of the `waitForFinalAnswer` polling loop at time `t`:
update on changed non-empty filtered text, short-circuit a changed reply of
length ≤ 5 with no spinner, and otherwise test the stability rule
(`everHadText && !spinning && now - lastChangeAt >= STABLE_MS`). -/
def finalStep (cfg : Cfg) (baseline : Nat) (t : Nat) (snap : List Segment)
    (s : FinalSt) : FinalStepRes :=
  let bs := getBubbleState snap baseline
  let clean := cleanFinal bs.text
  let changed : Bool := clean ≠ [] && clean ≠ s.lastText
  let s' := if changed then ⟨clean, t, true⟩ else s
  if changed && decide (s'.lastText.length ≤ 5) && !bs.spinning then
    .done s' .shortReply
  else if s'.everHadText && !bs.spinning && decide (cfg.STABLE_MS ≤ t - s'.lastChangeAt) then
    .done s' .stable
  else
    .cont s'

/-- The `while (Date.now() - t0 < CFG.MAX_ANSWER_MS)` loop of
`waitForFinalAnswer`. -/
def finalLoop (cfg : Cfg) (baseline : Nat) (t0 : Nat) :
    List (Nat × List Segment) → FinalSt → FinalSt × FinalExit
  | [], s => (s, .outOfPolls)
  | (t, snap) :: rest, s =>
    if t - t0 < cfg.MAX_ANSWER_MS then
      match finalStep cfg baseline t snap s with
      | .done s' ex => (s', ex)
      | .cont s' => finalLoop cfg baseline t0 rest s'
    else (s, .timedOut)

/-- The error thrown by `waitForFinalAnswer` (`throw new Error('no_text_captured')`). -/
inductive CaptureError
  | noTextCaptured
  deriving DecidableEq, Repr

/-- `waitForFinalAnswer(baselineCount)`: run the loop; an early return yields
the captured text; on loop end, fail iff no text was ever captured. -/
def waitForFinalAnswer (cfg : Cfg) (baseline : Nat) (t0 : Nat)
    (polls : List (Nat × List Segment)) :
    Except CaptureError (List Char) × FinalExit :=
  match finalLoop cfg baseline t0 polls ⟨[], t0, false⟩ with
  | (s, .shortReply) => (.ok s.lastText, .shortReply)
  | (s, .stable) => (.ok s.lastText, .stable)
  | (s, ex) =>
    (if s.everHadText then .ok s.lastText else .error .noTextCaptured, ex)

example :
    chunkLoop defaultCfg 0 0 [(100, [⟨"Hello".data, true⟩]), (1300, [⟨"Hello".data, true⟩])]
      ⟨[], 0, []⟩ = (⟨"Hello".data, 100, ["Hello".data]⟩, .stableBreak) := by decide

deriving instance DecidableEq for Except

example :
    waitForFinalAnswer defaultCfg 0 0 [(50, [⟨"Hi!".data, false⟩])] =
      (.ok "Hi!".data, .shortReply) := by decide

example :
    waitForFinalAnswer defaultCfg 0 0 [(50, [⟨"".data, false⟩]), (200, [])] =
      (.error .noTextCaptured, .outOfPolls) := by decide

/-! ## Submission Driver (`setInputFast` / `submitPrompt`, server.js)

The Surface-side outcomes of the injection strategies and of the
generation-start probes are inputs of the embedding: each strategy attempt
either throws (`none`) or yields the three boolean post-condition probes of
`okAfter` (text read-back matches, send button actionable, input non-empty). -/

/-- The three verification probes consulted by `okAfter` after a strategy. -/
structure StrategyOutcome where
  textMatches : Bool
  sendReady : Bool
  hasText : Bool
  deriving DecidableEq, Repr

/-- `okAfter`: any one probe suffices. -/
def okAfter (o : StrategyOutcome) : Bool :=
  o.textMatches || o.sendReady || o.hasText

/-- Surface behaviour during `setInputFast`: strategy A (`execCommand`),
strategy B (clipboard paste), strategy C (`keyboard.insertText`, with
`loc.type` as its in-catch fallback), and the final send-button check D. -/
structure InputEnv where
  stratA : Option StrategyOutcome
  stratB : Option StrategyOutcome
  stratC : Option StrategyOutcome
  stratCtype : Option StrategyOutcome
  finalSendReady : Bool
  deriving DecidableEq, Repr

/-- `setInputFast`: try A, B, C (with its fallback) in order, accepting the
first strategy whose post-condition is verified; as a last resort accept an
actionable send button. -/
def setInputFast (e : InputEnv) : Bool :=
  let aOk := match e.stratA with
    | some o => okAfter o
    | none => false
  if aOk then true
  else
    let bOk := match e.stratB with
      | some o => okAfter o
      | none => false
    if bOk then true
    else
      let cOk := match e.stratC with
        | some o => okAfter o
        | none =>
          match e.stratCtype with
          | some o => okAfter o
          | none => false
      if cOk then true
      else e.finalSendReady

/-- Surface behaviour during one `submitPrompt` call. -/
structure SubmitEnv where
  inputFound : Bool
  beforeCount : Nat
  inject : InputEnv
  forceEnterOnly : Bool
  startedFirst : Bool
  startedSecond : Bool
  deriving DecidableEq, Repr

/-- The externally visible Surface interactions of `submitPrompt`. -/
inductive SubmitAction
  | injectText
  | pressEnter
  | clickSend
  deriving DecidableEq, Repr

/-- The error messages `submitPrompt` can throw. -/
inductive SubmitError
  | noInputBox
  | pasteFailed
  | submitNotStarted
  deriving DecidableEq, Repr

/-- First commit attempt: `Enter` only under `FORCE_ENTER_ONLY`, otherwise
`Enter` then `clickSendButton`. -/
def commitActions (forceEnterOnly : Bool) : List SubmitAction :=
  if forceEnterOnly then [.pressEnter] else [.pressEnter, .clickSend]

/-- Retry commit attempt: `Enter` under `FORCE_ENTER_ONLY`, otherwise only
`clickSendButton`. -/
def retryActions (forceEnterOnly : Bool) : List SubmitAction :=
  if forceEnterOnly then [.pressEnter] else [.clickSend]

/-- `submitPrompt(prompt)`: find the input box, inject the prompt
(`setInputFast`, throwing `paste_failed` if unverified), then commit and wait
for a generation-start signal, retrying the commit once
(`submit_not_started` if still none).  Returns the recorded baseline on
success, paired with the Surface interactions that were performed. -/
def submitPrompt (env : SubmitEnv) : Except SubmitError Nat × List SubmitAction :=
  if env.inputFound = false then (.error .noInputBox, [])
  else if setInputFast env.inject = false then (.error .pasteFailed, [.injectText])
  else
    let acts := SubmitAction.injectText :: commitActions env.forceEnterOnly
    if env.startedFirst then (.ok env.beforeCount, acts)
    else
      let acts2 := acts ++ retryActions env.forceEnterOnly
      if env.startedSecond then (.ok env.beforeCount, acts2)
      else (.error .submitNotStarted, acts2)

/-- The message text of each `submitPrompt` error. -/
def submitErrorMsg : SubmitError → List Char
  | .noInputBox => "未找到输入框".data
  | .pasteFailed => "paste_failed".data
  | .submitNotStarted => "submit_not_started".data

/-- The message text of `waitForFinalAnswer`'s error. -/
def captureErrorMsg : CaptureError → List Char
  | .noTextCaptured => "no_text_captured".data

/-- The `catch` of `app.post('/v1/chat/completions')`: map a thrown message
to the error reason of the 502 response body. -/
def errorReason (msg : List Char) : List Char :=
  if containsSub "submit_not_started".data msg then "submit_not_started".data
  else if containsSub "no_text_captured".data msg then "no_text_captured".data
  else "proxy_error".data

/-! ## Session Controller: the single-flight `busy` gate (server.js) -/

/-- What the `/v1/chat/completions` handler does on arrival, before any
Surface work: reject with HTTP 429 while `busy`, else set `busy = true` and
proceed. -/
inductive HandlerOutcome
  | busyReject (status : Nat) (message : List Char)
  | proceed
  deriving DecidableEq, Repr

/-- The admission prologue of `app.post('/v1/chat/completions')`.  Returns
the outcome and the new value of `busy`. -/
def chatCompletionsGate (busy : Bool) : HandlerOutcome × Bool :=
  if busy then (.busyReject 429 "busy: single-flight in progress".data, busy)
  else (.proceed, true)

/-- Releasing the gate: the `res.once('finish')`/`res.once('close')`
listeners and the watchdog timer all set `busy = false`. -/
def releaseGate (_busy : Bool) : Bool := false

/-! ## Request body model, `wantStream` and the protocol branch (server.js)

JSON values are modelled with integer numbers (no claim depends on numeric
payloads); object fields are an association list looked up first-match. -/

inductive JsonVal
  | null
  | bool (b : Bool)
  | num (n : Int)
  | str (s : List Char)
  | arr (xs : List JsonVal)
  | obj (fields : List (List Char × JsonVal))

def lookupAssoc : List (List Char × JsonVal) → List Char → Option JsonVal
  | [], _ => none
  | (k, v) :: rest, key => if k = key then some v else lookupAssoc rest key

/-- `body?.field` on an object, `undefined` otherwise. -/
def getField (body : JsonVal) : List Char → Option JsonVal
  | key =>
    match body with
    | .obj fs => lookupAssoc fs key
    | _ => none

/-- `typeof body?.stream === 'boolean'`. -/
def streamFieldIsBoolean (body : JsonVal) : Bool :=
  match getField body "stream".data with
  | some (.bool _) => true
  | _ => false

/-- `wantStream`: the `stream` field if it is a boolean, else `true`. -/
def wantStream (body : JsonVal) : Bool :=
  match getField body "stream".data with
  | some (.bool b) => b
  | _ => true

/-- The outward representation produced by the handler's two branches. -/
inductive SseFrame
  | chunk (delta : List Char)
  | stop
  | doneMark
  deriving DecidableEq, Repr

inductive ProtocolResponse
  | sseStream (frames : List SseFrame)
  | jsonPayload (content : List Char)
  deriving DecidableEq, Repr

/-- The response shape of `app.post('/v1/chat/completions')` after a
successful submit: SSE chunks, a `finish_reason:'stop'` frame and
`data: [DONE]` when streaming was requested, one aggregate JSON body
otherwise. -/
def completionsResponse (body : JsonVal) (deltas : List (List Char))
    (finalText : List Char) : ProtocolResponse :=
  if wantStream body then
    .sseStream ((deltas.map .chunk) ++ [.stop, .doneMark])
  else
    .jsonPayload finalText

example : wantStream (.obj [("stream".data, .str "yes".data)]) = true := by decide
example : wantStream (.obj [("stream".data, .bool false)]) = false := by decide
example : wantStream (.obj []) = true := by decide

/-! ## Request sanitizer (`tools/kilo_sanitizer.mjs`) -/

/-- First defined value of `f` over a list. -/
def listFirstSome {α β : Type} (f : α → Option β) : List α → Option β
  | [] => none
  | x :: rest =>
    match f x with
    | some b => some b
    | none => listFirstSome f rest

/-- `Array.prototype.join`. -/
def joinWith (sep : List Char) : List (List Char) → List Char
  | [] => []
  | [x] => x
  | x :: y :: rest => x ++ sep ++ joinWith sep (y :: rest)

/-- `body?.messages` when it is an array, else `[]`. -/
def getMessages (p : JsonVal) : List JsonVal :=
  match getField p "messages".data with
  | some (.arr xs) => xs
  | _ => []

/-- `typeof m?.content === 'string' ? m.content : ''`. -/
def msgContent (m : JsonVal) : List Char :=
  match getField m "content".data with
  | some (.str s) => s
  | _ => []

/-- `/Kilo\s*Code/i` at the head of `l`. -/
def matchKiloCode (l : List Char) : Bool :=
  match ciStripLit "kilo".data l with
  | none => false
  | some r => (ciStripLit "code".data (dropWs r)).isSome

/-- `/Current\s+Mode\s*<slug>.*?<\/slug>/is` at the head of `l`
(the `s` flag lets `.` cross newlines, so the tail test is a plain
case-insensitive containment). -/
def matchModeSlugTag (l : List Char) : Bool :=
  match ciStripLit "current".data l with
  | none => false
  | some r1 =>
    match r1 with
    | [] => false
    | c :: t =>
      if isJsSpace c then
        match ciStripLit "mode".data (dropWs t) with
        | none => false
        | some r2 =>
          match ciStripLit "<slug>".data (dropWs r2) with
          | none => false
          | some r3 => containsSub "</slug>".data (lowerStr r3)
      else false

/-- `isKiloRequest(payload)`: join the string message contents with
newlines and test the three regexes. -/
def isKiloRequest (payload : JsonVal) : Bool :=
  let msgs := getMessages payload
  let joined := joinWith "\n".data (msgs.map msgContent)
  anyPos (fun l => (ciStripLit "you are kilo code".data l).isSome) joined ||
  anyPos matchModeSlugTag joined ||
  anyPos matchKiloCode joined

def slugAlternatives : List (List Char) :=
  ["ask".data, "code".data, "debug".data, "architect".data, "orchestrator".data]

/-- Try `(ask|code|debug|architect|orchestrator)<\/slug>` against `r`,
alternatives in regex order. -/
def trySlugAlts (r : List Char) : List (List Char) → Option (List Char)
  | [] => none
  | s :: rest =>
    match ciStripLit s r with
    | some r2 => if (ciStripLit "</slug>".data r2).isSome then some s else trySlugAlts r rest
    | none => trySlugAlts r rest

/-- `/<slug>(ask|code|debug|architect|orchestrator)<\/slug>/i` at the head of
`l`, yielding the lowercased captured slug. -/
def slugMatchHere (l : List Char) : Option (List Char) :=
  match ciStripLit "<slug>".data l with
  | none => none
  | some r => trySlugAlts r slugAlternatives

/-- `detectModeSlug(payload)`: first match over the messages in order. -/
def detectModeSlug (payload : JsonVal) : Option (List Char) :=
  listFirstSome (fun m => firstPos slugMatchHere (msgContent m)) (getMessages payload)

/-- `globLikeToRegex` + `RegExp.test`: case-insensitive whole-string match
where `*` matches any character sequence. -/
def globMatch : List Char → List Char → Bool
  | [], [] => true
  | [], _ :: _ => false
  | '*' :: ps, s =>
    globMatch ps s ||
      (match s with
       | [] => false
       | _ :: t => globMatch ('*' :: ps) t)
  | _ :: _, [] => false
  | p :: ps, c :: cs => p.toLower = c.toLower && globMatch ps cs
  termination_by p s => (p.length, s.length)

/-- `next?.model` as a string, if it is one. -/
def modelString (v : Option JsonVal) : Option (List Char) :=
  match v with
  | some (.str s) => some s
  | _ => none

/-- `shouldBlockModel(value, list)`: falsy values never match; otherwise any
glob in the block list may match. -/
def shouldBlockModel (value : Option (List Char)) (list : List (List Char)) : Bool :=
  match value with
  | none => false
  | some s => s ≠ [] && list.any (fun pat => globMatch pat s)

/-- `MODE_PRESETS`: per-mode tool whitelists. -/
def MODE_PRESETS (slug : List Char) : Option (List (List Char)) :=
  if slug = "ask".data then
    some ["read_file".data, "search_files".data, "list_files".data,
      "list_code_definition_names".data, "browser_action".data, "use_mcp_tool".data,
      "access_mcp_resource".data, "ask_followup_question".data, "attempt_completion".data]
  else if slug = "code".data then
    some ["read_file".data, "apply_diff".data, "write_to_file".data, "insert_content".data,
      "search_and_replace".data, "search_files".data, "list_files".data,
      "list_code_definition_names".data, "browser_action".data, "use_mcp_tool".data,
      "access_mcp_resource".data, "ask_followup_question".data, "attempt_completion".data]
  else if slug = "debug".data then
    some ["read_file".data, "apply_diff".data, "write_to_file".data, "insert_content".data,
      "search_and_replace".data, "search_files".data, "list_files".data,
      "list_code_definition_names".data, "browser_action".data, "use_mcp_tool".data,
      "access_mcp_resource".data, "ask_followup_question".data, "attempt_completion".data]
  else if slug = "architect".data then
    some ["read_file".data, "search_files".data, "list_files".data,
      "list_code_definition_names".data, "ask_followup_question".data, "attempt_completion".data]
  else if slug = "orchestrator".data then
    some ["new_task".data, "switch_mode".data, "ask_followup_question".data,
      "update_todo_list".data, "attempt_completion".data]
  else none

/-- `PROMPT_TEXTS` entries (`allowPre` embeds the source's allow-list lead-in
field). -/
structure PromptTexts where
  header : List Char
  allowPre : List Char
  noTools : List Char
  osBlock : List Char
  tail : List Char

def promptTextsZh : PromptTexts :=
  ⟨"根据<task>中的任务描述选择使用XML标签将完成任务的完整代码包裹，并且确保代码都保持正确的缩进。\n".data,
   "允许使用的工具（白名单）：\n- ".data,
   "本轮会话不允许调用任何工具。".data,
   [],
   "回答我的问题后等待我返回执行结果再继续下一步。".data⟩

def promptTextsEn : PromptTexts :=
  ⟨("You are a software engineering assistant. Always respond in English.\n" ++
    "Use XML-like tool tags when needed (at most one tool call per message).\n" ++
    "Format:\n<tool_name>\n <代码...>\n</tool_name>").data,
   "Allowed tools:\n- ".data,
   "No tool calls are allowed in this session.".data,
   ("Windows & Encoding:\n" ++
    "- Use PowerShell and force UTF-8 for <execute_command> on Windows:\n" ++
    "  powershell -NoProfile -ExecutionPolicy Bypass -Command \"$OutputEncoding=[Console]::OutputEncoding=[System.Text.UTF8Encoding]::new(); <YOUR_CMD>\"\n" ++
    "- Prefer Remove-Item for deletion; avoid Linux rm.").data,
   "Note: Call tools only when necessary; after each call, wait for the user to return the result before proceeding.".data⟩

/-- `PROMPT_TEXTS[lang] || PROMPT_TEXTS.zh`. -/
def promptTextsFor (lang : List Char) : PromptTexts :=
  if lang = "en".data then promptTextsEn else promptTextsZh

/-- `buildMinimalSystemPrompt`. -/
def buildMinimalSystemPrompt (lang : List Char) (keepTools : List (List Char))
    (modeSlug : List Char) : List Char :=
  let t := promptTextsFor lang
  let allow :=
    if keepTools ≠ [] then
      t.allowPre ++
        joinWith "\n- ".data
          (keepTools.map (fun tl => '<' :: tl ++ '>' :: "...</".data ++ tl ++ ['>']))
    else t.noTools
  joinWith "\n\n".data
    [t.header ++ "\n\n当前模式：".data ++ modeSlug, allow, t.osBlock, t.tail]

/-- Drop everything through the first case-insensitive occurrence of
`endPat`, if any. -/
def dropThroughCi (endPat : List Char) : List Char → Option (List Char)
  | [] => ciStripLit endPat []
  | c :: t =>
    match ciStripLit endPat (c :: t) with
    | some rest => some rest
    | none => dropThroughCi endPat t

/-- Global replace of `/<environment_details>[\s\S]*?<\/environment_details>/gi`
with the empty string (fuel-bounded scan; the fuel exceeds the length, and a
match always consumes). -/
def stripEnvBlocks : Nat → List Char → List Char
  | 0, l => l
  | _ + 1, [] => []
  | fuel + 1, c :: cs =>
    match ciStripLit "<environment_details>".data (c :: cs) with
    | some rest =>
      match dropThroughCi "</environment_details>".data rest with
      | some rest2 => stripEnvBlocks fuel rest2
      | none => c :: stripEnvBlocks fuel cs
    | none => c :: stripEnvBlocks fuel cs

/-- Single anchored replace of `/^\s*Current\s+Mode[\s\S]*?<\/slug>\s*/i`
with the empty string. -/
def stripCurrentModeHead (l : List Char) : List Char :=
  match ciStripLit "current".data (dropWs l) with
  | none => l
  | some r1 =>
    match r1 with
    | [] => l
    | c :: t =>
      if isJsSpace c then
        match ciStripLit "mode".data (dropWs t) with
        | none => l
        | some r2 =>
          match dropThroughCi "</slug>".data r2 with
          | some r3 => dropWs r3
          | none => l
      else l

/-- `stripNoiseFromUserContent(text, { stripEnv })`: only strings are
rewritten; an emptied result falls back to the original text. -/
def stripNoiseFromUserContent (text : JsonVal) (stripEnvOpt : Bool) : JsonVal :=
  match text with
  | .str s =>
    let out1 := if stripEnvOpt then jsTrim (stripEnvBlocks (s.length + 1) s) else s
    let out2 := jsTrim (stripCurrentModeHead out1)
    .str (if out2 = [] then s else out2)
  | other => other

/-- `Array.from(new Set(...))`: dedup keeping first occurrences. -/
def dedupKeep (seen : List (List Char)) : List (List Char) → List (List Char)
  | [] => []
  | x :: xs =>
    if seen.contains x then dedupKeep seen xs
    else x :: dedupKeep (x :: seen) xs

/-- `m?.role === 'user'`. -/
def isUserMsg (m : JsonVal) : Bool :=
  match getField m "role".data with
  | some (.str r) => r = "user".data
  | _ => false

/-- `rebuildMessages(original, { lang, keep, modeSlug, stripEnv })`.
A non-string surviving user content (on which the source would throw a
`TypeError` at `.trim()`) contributes no user message. -/
def rebuildMessages (original : JsonVal) (lang : List Char)
    (keep : List (List Char)) (modeSlug : List Char) (stripEnvOpt : Bool) :
    List JsonVal :=
  let keepTools := dedupKeep [] (keep ++ (MODE_PRESETS modeSlug).getD [])
  let sys : JsonVal :=
    .obj [("role".data, .str "system".data),
          ("content".data, .str (buildMinimalSystemPrompt lang keepTools modeSlug))]
  let users := (getMessages original).filter isUserMsg
  let lastUser := users.getLast?
  let rawContent :=
    (lastUser.bind (fun m => getField m "content".data)).getD (.str [])
  match stripNoiseFromUserContent rawContent stripEnvOpt with
  | .str s =>
    if s ≠ [] ∧ jsTrim s ≠ [] then
      [sys, .obj [("role".data, .str "user".data), ("content".data, .str (jsTrim s))]]
    else [sys]
  | _ => [sys]

def allowedTopFields : List (List Char) :=
  ["model".data, "messages".data, "temperature".data, "top_p".data,
   "stream".data, "stream_options".data, "max_tokens".data, "stop".data]

/-- `pruneTopFields`. -/
def pruneTopFields (fs : List (List Char × JsonVal)) : List (List Char × JsonVal) :=
  fs.filter (fun kv => allowedTopFields.contains kv.1)

/-- `'key' in obj`. -/
def hasField (fs : List (List Char × JsonVal)) (key : List Char) : Bool :=
  (lookupAssoc fs key).isSome

/-- `delete obj.key`. -/
def deleteField (fs : List (List Char × JsonVal)) (key : List Char) :
    List (List Char × JsonVal) :=
  fs.filter (fun kv => kv.1 ≠ key)

/-- `obj.key = v`: overwrite in place or append. -/
def setField (fs : List (List Char × JsonVal)) (key : List Char) (v : JsonVal) :
    List (List Char × JsonVal) :=
  if hasField fs key then fs.map (fun kv => if kv.1 = key then (key, v) else kv)
  else fs ++ [(key, v)]

def hexDigit (n : Nat) : Char :=
  if n < 10 then Char.ofNat ('0'.toNat + n) else Char.ofNat ('a'.toNat + (n - 10))

/-- `JSON.stringify` escaping for one character. -/
def escChar (c : Char) : List Char :=
  if c = '"' then ['\\', '"']
  else if c = '\\' then ['\\', '\\']
  else if c = '\x08' then ['\\', 'b']
  else if c = '\x0c' then ['\\', 'f']
  else if c = '\n' then ['\\', 'n']
  else if c = '\r' then ['\\', 'r']
  else if c = '\t' then ['\\', 't']
  else if c.toNat < 32 then
    ['\\', 'u', '0', '0', hexDigit (c.toNat / 16), hexDigit (c.toNat % 16)]
  else [c]

def escStr (s : List Char) : List Char := (s.map escChar).flatten

def intToChars (n : Int) : List Char :=
  if n < 0 then '-' :: Nat.toDigits 10 n.natAbs else Nat.toDigits 10 n.toNat

mutual

/-- `JSON.stringify` (numbers are integers in this model). -/
def jsonStringify : JsonVal → List Char
  | .null => "null".data
  | .bool true => "true".data
  | .bool false => "false".data
  | .num n => intToChars n
  | .str s => '"' :: escStr s ++ ['"']
  | .arr xs => '[' :: jsonStringifyArr xs ++ [']']
  | .obj fs => '\x7b' :: jsonStringifyObj fs ++ ['\x7d']

def jsonStringifyArr : List JsonVal → List Char
  | [] => []
  | [x] => jsonStringify x
  | x :: y :: rest => jsonStringify x ++ ',' :: jsonStringifyArr (y :: rest)

def jsonStringifyObj : List (List Char × JsonVal) → List Char
  | [] => []
  | [(k, v)] => '"' :: escStr k ++ '"' :: ':' :: jsonStringify v
  | (k, v) :: f :: rest =>
    '"' :: escStr k ++ '"' :: ':' :: jsonStringify v ++ ',' :: jsonStringifyObj (f :: rest)

end

/-- `Buffer.byteLength(JSON.stringify(v))`. -/
def byteLength (v : JsonVal) : Nat := ((jsonStringify v).map Char.utf8Size).sum

/-- The sanitizer options after the `{ ...DEFAULTS, ...opts }` merge. -/
structure SanOptions where
  mode : List Char
  keep : List (List Char)
  stripEnv : Bool
  stripStreamOptions : Bool
  stripUnknownTopFields : Bool
  stripModel : Bool
  blockModels : List (List Char)
  lang : List Char
  pretty : Bool

/-- `DEFAULTS` from `kilo_sanitizer.mjs`. -/
def sanitizerDefaults : SanOptions :=
  ⟨"tools-minimal".data, [], true, false, false, true,
   ["gemini-2.5-flash".data, "gemini-webui".data], "zh".data, true⟩

/-- The record returned by `sanitizeKiloRequest`. -/
structure SanResult where
  json : JsonVal
  changed : Bool
  reason : List Char
  bytesBefore : Nat
  bytesAfter : Nat

/-- `sanitizeKiloRequest(payload, opts)`: non-Kilo payloads pass through
unchanged; Kilo payloads get minimal messages, optional `stream_options` /
`model` removal and optional top-field pruning, with an accumulated reason. -/
def sanitizeKiloRequest (payload : JsonVal) (opts : SanOptions) : SanResult :=
  let before := byteLength payload
  if isKiloRequest payload = false then
    ⟨payload, false, "passthrough".data, before, before⟩
  else
    let modeSlug := (detectModeSlug payload).getD "code".data
    let fs0 := match payload with
      | .obj fs => fs
      | _ => []
    let step1 : List (List Char × JsonVal) × Bool × List Char :=
      if opts.mode = "tools-minimal".data then
        (setField fs0 "messages".data
           (.arr (rebuildMessages payload opts.lang opts.keep modeSlug opts.stripEnv)),
         true, "tools-minimal".data)
      else if opts.mode = "tools-off".data then
        (setField fs0 "messages".data
           (.arr (rebuildMessages payload opts.lang [] modeSlug opts.stripEnv)),
         true, "tools-off".data)
      else (fs0, false, "passthrough".data)
    let step2 : List (List Char × JsonVal) × Bool × List Char :=
      if opts.stripStreamOptions && hasField step1.1 "stream_options".data then
        (deleteField step1.1 "stream_options".data, true,
         step1.2.2 ++ " +strip-stream-options".data)
      else step1
    let modelVal := lookupAssoc step2.1 "model".data
    let step3 : List (List Char × JsonVal) × Bool × List Char :=
      if opts.stripModel || shouldBlockModel (modelString modelVal) opts.blockModels then
        if hasField step2.1 "model".data then
          (deleteField step2.1 "model".data, true, step2.2.2 ++ " +strip-model".data)
        else step2
      else step2
    let step4 : List (List Char × JsonVal) × Bool × List Char :=
      if opts.stripUnknownTopFields then
        (pruneTopFields step3.1, true, step3.2.2 ++ " +prune-top-fields".data)
      else step3
    let next := JsonVal.obj step4.1
    let after := byteLength next
    ⟨next, step4.2.1, jsTrim step4.2.2, before, after⟩

example :
    isKiloRequest (.obj [("messages".data,
      .arr [.obj [("role".data, .str "user".data),
                  ("content".data, .str "hello world".data)]])]) = false := by decide

example :
    isKiloRequest (.obj [("messages".data,
      .arr [.obj [("role".data, .str "system".data),
                  ("content".data, .str "You are Kilo Code, an assistant".data)]])]) = true := by
  decide

example :
    detectModeSlug (.obj [("messages".data,
      .arr [.obj [("content".data, .str "Current Mode\n<slug>ask</slug>".data)]])]) =
      some "ask".data := by decide

/-! ## Claim theorems -/

/-- C1: a capture poll reads only the most recent reply segment, and only
when the Surface shows more segments than the baseline count; with at most
`b` segments the poll reports nothing, so the text read never comes from one
of the first `b` (pre-baseline, stale) segments. -/
theorem baseline_reads_beyond (segs : List Segment) (b : Nat) :
    (segs.length ≤ b →
      getBubbleState segs b = ⟨false, [], false⟩ ∧ grabAnswerText segs b = []) ∧
    (b < segs.length → ∃ seg : Segment, segs.getLast? = some seg ∧
      seg ∈ segs.drop b ∧
      getBubbleState segs b = ⟨true, jsTrim seg.text, seg.spinning⟩ ∧
      grabAnswerText segs b = jsTrim seg.text) := by
  constructor
  · intro h
    constructor <;> simp [getBubbleState, grabAnswerText, h]
  · intro h
    have hd : segs.drop b ≠ [] := by
      intro e
      have := congrArg List.length e
      simp [List.length_drop] at this
      omega
    have hL : segs.getLast? = (segs.drop b).getLast? := by
      conv_lhs => rw [← List.take_append_drop b segs]
      exact List.getLast?_append_of_ne_nil _ hd
    obtain ⟨seg, hseg⟩ : ∃ seg, (segs.drop b).getLast? = some seg := by
      cases hc : (segs.drop b).getLast? with
      | none => exact absurd (List.getLast?_eq_none_iff.mp hc) hd
      | some s => exact ⟨s, rfl⟩
    have hmem : seg ∈ segs.drop b := by
      obtain ⟨hne, he⟩ :=
        List.mem_getLast?_eq_getLast (l := segs.drop b) (x := seg) (by simp [hseg])
      rw [he]
      exact List.getLast_mem hne
    have hsegs : segs.getLast? = some seg := hL.trans hseg
    have hnle : ¬ segs.length ≤ b := Nat.not_le.mpr h
    refine ⟨seg, hsegs, hmem, ?_, ?_⟩
    · simp [getBubbleState, hsegs, hnle]
    · simp [grabAnswerText, getBubbleState, hsegs, hnle]

/-- Witness for C1 at a concrete two-segment Surface with baseline 1, and at
a one-segment Surface with baseline 1. -/
theorem baseline_reads_beyond_witness :
    (getBubbleState [⟨"old".data, false⟩] 1 = ⟨false, [], false⟩ ∧
      grabAnswerText [⟨"old".data, false⟩] 1 = []) ∧
    (∃ seg : Segment,
      ([⟨"old".data, false⟩, ⟨"new".data, false⟩] : List Segment).getLast? = some seg ∧
      seg ∈ ([⟨"old".data, false⟩, ⟨"new".data, false⟩] : List Segment).drop 1 ∧
      getBubbleState [⟨"old".data, false⟩, ⟨"new".data, false⟩] 1 =
        ⟨true, jsTrim seg.text, seg.spinning⟩ ∧
      grabAnswerText [⟨"old".data, false⟩, ⟨"new".data, false⟩] 1 = jsTrim seg.text) :=
  ⟨(baseline_reads_beyond [⟨"old".data, false⟩] 1).1 (by decide),
   (baseline_reads_beyond [⟨"old".data, false⟩, ⟨"new".data, false⟩] 1).2 (by decide)⟩

/-- C6: while `busy` is true the `/v1/chat/completions` prologue rejects
immediately with HTTP 429 and the busy error message, leaving no queued
state; an idle gate admits and sets `busy`; and after any release (response
finish, close, or watchdog fire) a retried request is admitted. -/
theorem busy_single_flight :
    chatCompletionsGate true =
      (.busyReject 429 "busy: single-flight in progress".data, true) ∧
    chatCompletionsGate false = (.proceed, true) ∧
    (∀ b : Bool, chatCompletionsGate (releaseGate b) = (.proceed, true)) :=
  ⟨rfl, rfl, fun _ => rfl⟩

/-- C9: when the top-level `stream` field is absent or not a boolean,
`wantStream` is `true` and the handler answers with the SSE event sequence
(delta chunks, a stop frame, `data: [DONE]`), not an aggregate JSON body. -/
theorem stream_defaults_to_sse (body : JsonVal)
    (h : streamFieldIsBoolean body = false) :
    wantStream body = true ∧
    ∀ (deltas : List (List Char)) (finalText : List Char),
      completionsResponse body deltas finalText =
        .sseStream ((deltas.map .chunk) ++ [.stop, .doneMark]) := by
  have hw : wantStream body = true := by
    unfold streamFieldIsBoolean at h
    unfold wantStream
    rcases hf : getField body "stream".data with _ | v
    · rfl
    · rw [hf] at h
      cases v <;> simp_all
  exact ⟨hw, fun deltas finalText => by simp [completionsResponse, hw]⟩

/-- Witness for C9: a body whose `stream` field is a string. -/
theorem stream_defaults_to_sse_witness :
    wantStream (.obj [("stream".data, .str "yes".data)]) = true ∧
    completionsResponse (.obj [("stream".data, .str "yes".data)])
        ["Hi".data] "Hi".data =
      .sseStream [.chunk "Hi".data, .stop, .doneMark] :=
  ⟨(stream_defaults_to_sse (.obj [("stream".data, .str "yes".data)]) (by decide)).1,
   (stream_defaults_to_sse (.obj [("stream".data, .str "yes".data)]) (by decide)).2
     ["Hi".data] "Hi".data⟩

/-- C10: a payload that is not recognized as a Kilo Code request passes
through `sanitizeKiloRequest` unchanged: same object, `changed = false`,
reason `passthrough`, and `bytesAfter = bytesBefore`. -/
theorem sanitizer_passthrough (payload : JsonVal) (opts : SanOptions)
    (h : isKiloRequest payload = false) :
    sanitizeKiloRequest payload opts =
      ⟨payload, false, "passthrough".data, byteLength payload, byteLength payload⟩ := by
  unfold sanitizeKiloRequest
  simp [h]

/-- Witness for C10: a plain chat payload with no Kilo markers. -/
theorem sanitizer_passthrough_witness :
    isKiloRequest (.obj [("messages".data,
        .arr [.obj [("role".data, .str "user".data),
                    ("content".data, .str "hello world".data)]])]) = false ∧
    sanitizeKiloRequest
        (.obj [("messages".data,
          .arr [.obj [("role".data, .str "user".data),
                      ("content".data, .str "hello world".data)]])])
        sanitizerDefaults =
      ⟨.obj [("messages".data,
          .arr [.obj [("role".data, .str "user".data),
                      ("content".data, .str "hello world".data)]])],
       false, "passthrough".data,
       byteLength (.obj [("messages".data,
          .arr [.obj [("role".data, .str "user".data),
                      ("content".data, .str "hello world".data)]])]),
       byteLength (.obj [("messages".data,
          .arr [.obj [("role".data, .str "user".data),
                      ("content".data, .str "hello world".data)]])])⟩ :=
  ⟨by decide, sanitizer_passthrough _ sanitizerDefaults (by decide)⟩

/-- C5: when no injection strategy's post-condition (text read-back, send
button actionable, or non-empty input) is verified, `setInputFast` reports
failure and `submitPrompt` throws `paste_failed` without performing any
commit action (no Enter press, no send click); at the HTTP boundary this
surfaces as the generic `proxy_error` reason, which is distinct from the
`submit_not_started` reason of `SubmissionNotStarted`. -/
theorem submission_failed_before_commit (env : SubmitEnv)
    (hfound : env.inputFound = true)
    (hA : ∀ o, env.inject.stratA = some o → okAfter o = false)
    (hB : ∀ o, env.inject.stratB = some o → okAfter o = false)
    (hC : ∀ o, env.inject.stratC = some o → okAfter o = false)
    (hCt : ∀ o, env.inject.stratCtype = some o → okAfter o = false)
    (hD : env.inject.finalSendReady = false) :
    setInputFast env.inject = false ∧
    (submitPrompt env).1 = .error .pasteFailed ∧
    SubmitAction.pressEnter ∉ (submitPrompt env).2 ∧
    SubmitAction.clickSend ∉ (submitPrompt env).2 ∧
    errorReason (submitErrorMsg .pasteFailed) = "proxy_error".data ∧
    errorReason (submitErrorMsg .pasteFailed) ≠
      errorReason (submitErrorMsg .submitNotStarted) := by
  have hset : setInputFast env.inject = false := by
    unfold setInputFast
    rcases ha : env.inject.stratA with _ | oA
    · rcases hb : env.inject.stratB with _ | oB
      · rcases hc : env.inject.stratC with _ | oC
        · rcases hct : env.inject.stratCtype with _ | oCt
          · simp [hD]
          · simp [hCt oCt hct, hD]
        · simp [hC oC hc, hD]
      · rcases hc : env.inject.stratC with _ | oC
        · rcases hct : env.inject.stratCtype with _ | oCt
          · simp [hB oB hb, hD]
          · simp [hB oB hb, hCt oCt hct, hD]
        · simp [hB oB hb, hC oC hc, hD]
    · have haf := hA oA ha
      rcases hb : env.inject.stratB with _ | oB
      · rcases hc : env.inject.stratC with _ | oC
        · rcases hct : env.inject.stratCtype with _ | oCt
          · simp [haf, hD]
          · simp [haf, hCt oCt hct, hD]
        · simp [haf, hC oC hc, hD]
      · rcases hc : env.inject.stratC with _ | oC
        · rcases hct : env.inject.stratCtype with _ | oCt
          · simp [haf, hB oB hb, hD]
          · simp [haf, hB oB hb, hCt oCt hct, hD]
        · simp [haf, hB oB hb, hC oC hc, hD]
  have hrun : submitPrompt env = (.error .pasteFailed, [.injectText]) := by
    unfold submitPrompt
    simp [hfound, hset]
  refine ⟨hset, by rw [hrun], ?_, ?_, by decide, by decide⟩
  · rw [hrun]; decide
  · rw [hrun]; decide

/-- Witness for C5: a Surface where strategies A and C return unverified
probes, B and the C fallback throw, and the send button never lights up. -/
theorem submission_failed_before_commit_witness :
    setInputFast ⟨some ⟨false, false, false⟩, none, some ⟨false, false, false⟩,
        none, false⟩ = false ∧
    (submitPrompt ⟨true, 0,
        ⟨some ⟨false, false, false⟩, none, some ⟨false, false, false⟩, none, false⟩,
        false, false, false⟩).1 = .error .pasteFailed ∧
    SubmitAction.pressEnter ∉ (submitPrompt ⟨true, 0,
        ⟨some ⟨false, false, false⟩, none, some ⟨false, false, false⟩, none, false⟩,
        false, false, false⟩).2 ∧
    SubmitAction.clickSend ∉ (submitPrompt ⟨true, 0,
        ⟨some ⟨false, false, false⟩, none, some ⟨false, false, false⟩, none, false⟩,
        false, false, false⟩).2 ∧
    errorReason (submitErrorMsg .pasteFailed) = "proxy_error".data ∧
    errorReason (submitErrorMsg .pasteFailed) ≠
      errorReason (submitErrorMsg .submitNotStarted) :=
  submission_failed_before_commit
    ⟨true, 0, ⟨some ⟨false, false, false⟩, none, some ⟨false, false, false⟩, none, false⟩,
      false, false, false⟩
    rfl
    (fun o h => by cases h; rfl)
    (fun o h => by cases h)
    (fun o h => by cases h; rfl)
    (fun o h => by cases h)
    rfl

/-! ### Helper lemmas about `finalStep` / `finalLoop` -/

/-- The state carried by a `finalStep` result. -/
def finalStepSt : FinalStepRes → FinalSt
  | .cont s => s
  | .done s _ => s

/-- The filtered text `waitForFinalAnswer` sees on a poll. -/
def pollClean (baseline : Nat) (snap : List Segment) : List Char :=
  cleanFinal (getBubbleState snap baseline).text

/-- Did some poll executed before the time bound carry non-empty filtered
text?  (The loop exits at the first poll at or past `MAX_ANSWER_MS`.) -/
def observedIn (cfg : Cfg) (baseline t0 : Nat)
    (polls : List (Nat × List Segment)) : Bool :=
  (polls.takeWhile (fun p => decide (p.1 - t0 < cfg.MAX_ANSWER_MS))).any
    (fun p => decide (pollClean baseline p.2 ≠ []))

theorem finalStep_state (cfg : Cfg) (baseline t : Nat) (snap : List Segment)
    (s : FinalSt) :
    finalStepSt (finalStep cfg baseline t snap s) =
      (if pollClean baseline snap ≠ [] ∧ pollClean baseline snap ≠ s.lastText
       then ⟨pollClean baseline snap, t, true⟩ else s) := by
  simp only [finalStep, pollClean]
  split
  · next h =>
    have h' : cleanFinal (getBubbleState snap baseline).text ≠ [] ∧
        cleanFinal (getBubbleState snap baseline).text ≠ s.lastText := by
      simp only [Bool.and_eq_true, decide_eq_true_eq] at h
      exact h
    rw [if_pos h']
    split <;> first | rfl | (split <;> rfl)
  · next h =>
    have h' : ¬(cleanFinal (getBubbleState snap baseline).text ≠ [] ∧
        cleanFinal (getBubbleState snap baseline).text ≠ s.lastText) := by
      simp only [Bool.and_eq_true, decide_eq_true_eq] at h
      exact h
    rw [if_neg h']
    split <;> first | rfl | (split <;> rfl)

theorem finalStep_inv (cfg : Cfg) (baseline t : Nat) (snap : List Segment)
    (s : FinalSt) (hInv : s.everHadText = true ↔ s.lastText ≠ []) :
    (finalStepSt (finalStep cfg baseline t snap s)).everHadText = true ↔
      (finalStepSt (finalStep cfg baseline t snap s)).lastText ≠ [] := by
  rw [finalStep_state]
  split
  · next h => simpa using h.1
  · exact hInv

theorem finalStep_everHad (cfg : Cfg) (baseline t : Nat) (snap : List Segment)
    (s : FinalSt) (hInv : s.everHadText = true ↔ s.lastText ≠ []) :
    (finalStepSt (finalStep cfg baseline t snap s)).everHadText =
      (s.everHadText || decide (pollClean baseline snap ≠ [])) := by
  rw [finalStep_state]
  split
  · next h => simp [h.1]
  · next h =>
    by_cases h1 : pollClean baseline snap = []
    · simp [h1]
    · have h2 : pollClean baseline snap = s.lastText := by tauto
      have hne : s.lastText ≠ [] := h2 ▸ h1
      simp [hInv.mpr hne]

theorem finalStep_done (cfg : Cfg) (baseline t : Nat) (snap : List Segment)
    (s s' : FinalSt) (ex : FinalExit)
    (h : finalStep cfg baseline t snap s = .done s' ex) :
    s'.everHadText = true ∧ (ex = .shortReply ∨ ex = .stable) := by
  simp only [finalStep] at h
  split at h
  · -- changed = true: the carried state has everHadText := true
    split at h
    · cases h
      exact ⟨rfl, Or.inl rfl⟩
    · split at h
      · cases h
        exact ⟨rfl, Or.inr rfl⟩
      · cases h
  · -- changed = false: the carried state is s
    rename_i hch
    split at h
    · next hc =>
      exact absurd (((Bool.and_eq_true _ _).mp ((Bool.and_eq_true _ _).mp hc).1).1) hch
    · split at h
      · next hc =>
        cases h
        obtain ⟨h12, _⟩ := (Bool.and_eq_true _ _).mp hc
        exact ⟨((Bool.and_eq_true _ _).mp h12).1, Or.inr rfl⟩
      · cases h

theorem finalStep_stable_conds (cfg : Cfg) (baseline t : Nat)
    (snap : List Segment) (s s' : FinalSt)
    (h : finalStep cfg baseline t snap s = .done s' .stable) :
    (getBubbleState snap baseline).spinning = false ∧
    cfg.STABLE_MS ≤ t - s'.lastChangeAt ∧ s'.everHadText = true := by
  simp only [finalStep] at h
  split at h <;> split at h
  · cases h
  · split at h
    · next hc =>
      cases h
      obtain ⟨h12, h3⟩ := (Bool.and_eq_true _ _).mp hc
      obtain ⟨h1, h2⟩ := (Bool.and_eq_true _ _).mp h12
      exact ⟨by simpa using h2, of_decide_eq_true h3, h1⟩
    · cases h
  · cases h
  · split at h
    · next hc =>
      cases h
      obtain ⟨h12, h3⟩ := (Bool.and_eq_true _ _).mp hc
      obtain ⟨h1, h2⟩ := (Bool.and_eq_true _ _).mp h12
      exact ⟨by simpa using h2, of_decide_eq_true h3, h1⟩
    · cases h

theorem finalLoop_facts (cfg : Cfg) (baseline t0 : Nat)
    (polls : List (Nat × List Segment)) :
    ∀ s : FinalSt, (s.everHadText = true ↔ s.lastText ≠ []) →
      ((finalLoop cfg baseline t0 polls s).1.everHadText =
        (s.everHadText || observedIn cfg baseline t0 polls)) ∧
      ((finalLoop cfg baseline t0 polls s).1.everHadText = true ↔
        (finalLoop cfg baseline t0 polls s).1.lastText ≠ []) ∧
      (((finalLoop cfg baseline t0 polls s).2 = .shortReply ∨
        (finalLoop cfg baseline t0 polls s).2 = .stable) →
        (finalLoop cfg baseline t0 polls s).1.everHadText = true) := by
  induction polls with
  | nil =>
    intro s hInv
    refine ⟨by simp [finalLoop, observedIn], hInv, ?_⟩
    rintro (h | h) <;> simp [finalLoop] at h
  | cons p rest ih =>
    obtain ⟨t, snap⟩ := p
    intro s hInv
    by_cases ht : t - t0 < cfg.MAX_ANSWER_MS
    · have hobs : observedIn cfg baseline t0 ((t, snap) :: rest) =
          (decide (pollClean baseline snap ≠ []) ||
            observedIn cfg baseline t0 rest) := by
        simp [observedIn, List.takeWhile_cons, ht]
      have hloop : finalLoop cfg baseline t0 ((t, snap) :: rest) s =
          match finalStep cfg baseline t snap s with
          | .done s' ex => (s', ex)
          | .cont s' => finalLoop cfg baseline t0 rest s' := by
        simp [finalLoop, ht]
      rcases hstep : finalStep cfg baseline t snap s with s' | ⟨s', ex⟩
      · -- continue
        have hSt : finalStepSt (finalStep cfg baseline t snap s) = s' := by
          rw [hstep]; rfl
        have hInv' := finalStep_inv cfg baseline t snap s hInv
        have hHad := finalStep_everHad cfg baseline t snap s hInv
        rw [hSt] at hInv' hHad
        have hres : finalLoop cfg baseline t0 ((t, snap) :: rest) s =
            finalLoop cfg baseline t0 rest s' := by rw [hloop, hstep]
        obtain ⟨i1, i2, i3⟩ := ih s' hInv'
        rw [hres, hobs]
        refine ⟨?_, i2, i3⟩
        rw [i1, hHad, Bool.or_assoc]
      · -- done at this poll
        have hSt : finalStepSt (finalStep cfg baseline t snap s) = s' := by
          rw [hstep]; rfl
        have hInv' := finalStep_inv cfg baseline t snap s hInv
        have hHad := finalStep_everHad cfg baseline t snap s hInv
        rw [hSt] at hInv' hHad
        obtain ⟨hev, _⟩ := finalStep_done cfg baseline t snap s s' ex hstep
        have hres : finalLoop cfg baseline t0 ((t, snap) :: rest) s = (s', ex) := by
          rw [hloop, hstep]
        rw [hres, hobs]
        refine ⟨?_, hInv', fun _ => hev⟩
        have : (s.everHadText || decide (pollClean baseline snap ≠ [])) = true := by
          rw [← hHad, hev]
        rcases Bool.or_eq_true_iff.mp this with hl | hr
        · simp [hev, hl]
        · simp [hev, hr]
    · have hobs : observedIn cfg baseline t0 ((t, snap) :: rest) = false := by
        simp [observedIn, List.takeWhile_cons, ht]
      have hres : finalLoop cfg baseline t0 ((t, snap) :: rest) s =
          (s, .timedOut) := by simp [finalLoop, ht]
      rw [hres, hobs]
      exact ⟨by simp, hInv, by rintro (h | h) <;> cases h⟩

/-- C4: `waitForFinalAnswer` fails with `NoTextCaptured` exactly when the
polling loop ran out of time without ever observing non-empty filtered text;
whenever it succeeds, the returned (possibly partial) text is non-empty. -/
theorem no_text_captured_iff (cfg : Cfg) (baseline t0 : Nat)
    (polls : List (Nat × List Segment)) :
    ((waitForFinalAnswer cfg baseline t0 polls).1 = .error .noTextCaptured ↔
      observedIn cfg baseline t0 polls = false) ∧
    (∀ txt, (waitForFinalAnswer cfg baseline t0 polls).1 = .ok txt → txt ≠ []) := by
  obtain ⟨m1, m2, m3⟩ := finalLoop_facts cfg baseline t0 polls ⟨[], t0, false⟩ (by simp)
  unfold waitForFinalAnswer
  rcases hr : finalLoop cfg baseline t0 polls ⟨[], t0, false⟩ with ⟨s, ex⟩
  rw [hr] at m1 m2 m3
  simp only [Bool.false_or] at m1
  cases ex with
  | shortReply =>
    have he : s.everHadText = true := m3 (Or.inl rfl)
    have hobs : observedIn cfg baseline t0 polls = true := by rw [← m1, he]
    refine ⟨by simp [hobs], ?_⟩
    intro txt htxt
    cases htxt
    exact m2.mp he
  | stable =>
    have he : s.everHadText = true := m3 (Or.inr rfl)
    have hobs : observedIn cfg baseline t0 polls = true := by rw [← m1, he]
    refine ⟨by simp [hobs], ?_⟩
    intro txt htxt
    cases htxt
    exact m2.mp he
  | timedOut =>
    by_cases he : s.everHadText = true
    · have hobs : observedIn cfg baseline t0 polls = true := by rw [← m1, he]
      refine ⟨by simp [he, hobs], ?_⟩
      intro txt htxt
      simp only [he, if_true] at htxt
      cases htxt
      exact m2.mp he
    · have he' : s.everHadText = false := by simpa using he
      have hobs : observedIn cfg baseline t0 polls = false := by rw [← m1, he']
      refine ⟨by simp [he', hobs], ?_⟩
      intro txt htxt
      simp [he'] at htxt
  | outOfPolls =>
    by_cases he : s.everHadText = true
    · have hobs : observedIn cfg baseline t0 polls = true := by rw [← m1, he]
      refine ⟨by simp [he, hobs], ?_⟩
      intro txt htxt
      simp only [he, if_true] at htxt
      cases htxt
      exact m2.mp he
    · have he' : s.everHadText = false := by simpa using he
      have hobs : observedIn cfg baseline t0 polls = false := by rw [← m1, he']
      refine ⟨by simp [he', hobs], ?_⟩
      intro txt htxt
      simp [he'] at htxt

/-- Witness for C4: a trace that observes text returns it as a non-error
(and the text is non-empty); the iff rules out `NoTextCaptured` there. -/
theorem no_text_captured_iff_witness :
    (waitForFinalAnswer defaultCfg 0 0 [(100, [⟨"Hi everyone".data, false⟩])]).1 ≠
      .error .noTextCaptured ∧
    "Hi everyone".data ≠ ([] : List Char) :=
  ⟨fun h =>
    absurd ((no_text_captured_iff defaultCfg 0 0
      [(100, [⟨"Hi everyone".data, false⟩])]).1.mp h) (by decide),
   (no_text_captured_iff defaultCfg 0 0 [(100, [⟨"Hi everyone".data, false⟩])]).2
     "Hi everyone".data (by decide)⟩

theorem finalLoop_stable (cfg : Cfg) (baseline t0 : Nat)
    (polls : List (Nat × List Segment)) :
    ∀ s0 s : FinalSt, (s0.everHadText = true ↔ s0.lastText ≠ []) →
      finalLoop cfg baseline t0 polls s0 = (s, .stable) →
      s.lastText ≠ [] ∧
      ∃ p ∈ polls, (getBubbleState p.2 baseline).spinning = false ∧
        cfg.STABLE_MS ≤ p.1 - s.lastChangeAt := by
  induction polls with
  | nil =>
    intro s0 s _ h
    simp [finalLoop] at h
  | cons p rest ih =>
    obtain ⟨t, snap⟩ := p
    intro s0 s hInv h
    by_cases ht : t - t0 < cfg.MAX_ANSWER_MS
    · rw [show finalLoop cfg baseline t0 ((t, snap) :: rest) s0 =
          match finalStep cfg baseline t snap s0 with
          | .done s' ex => (s', ex)
          | .cont s' => finalLoop cfg baseline t0 rest s'
        from by simp [finalLoop, ht]] at h
      rcases hstep : finalStep cfg baseline t snap s0 with s' | ⟨s', ex⟩
      · rw [hstep] at h
        have hInv' := finalStep_inv cfg baseline t snap s0 hInv
        rw [show finalStepSt (finalStep cfg baseline t snap s0) = s' from by
          rw [hstep]; rfl] at hInv'
        obtain ⟨h1, q, hq, h2⟩ := ih s' s hInv' h
        exact ⟨h1, q, List.mem_cons_of_mem _ hq, h2⟩
      · rw [hstep] at h
        cases h
        obtain ⟨hsp, hst, hev⟩ :=
          finalStep_stable_conds cfg baseline t snap s0 s hstep
        have hInv' := finalStep_inv cfg baseline t snap s0 hInv
        rw [show finalStepSt (finalStep cfg baseline t snap s0) = s from by
          rw [hstep]; rfl] at hInv'
        exact ⟨hInv'.mp hev, (t, snap), List.mem_cons_self _ _, hsp, hst⟩
    · rw [show finalLoop cfg baseline t0 ((t, snap) :: rest) s0 = (s0, .timedOut)
        from by simp [finalLoop, ht]] at h
      cases h

theorem chunkStep_break_cond (cfg : Cfg) (baseline t : Nat)
    (snap : List Segment) (s0 s' : ChunkSt)
    (h : chunkStep cfg baseline t snap s0 = (s', true)) :
    s'.last ≠ [] ∧ cfg.STABLE_MS ≤ t - s'.lastChangeAt := by
  simp only [chunkStep] at h
  split at h
  · cases h
  · have hb := congrArg Prod.snd h
    have hs := congrArg Prod.fst h
    simp only at hb hs
    rw [hs] at hb
    obtain ⟨h1, h2⟩ := (Bool.and_eq_true _ _).mp hb
    exact ⟨of_decide_eq_true h1, of_decide_eq_true h2⟩

theorem chunkLoop_stableBreak (cfg : Cfg) (baseline t0 : Nat)
    (polls : List (Nat × List Segment)) :
    ∀ s0 s : ChunkSt,
      chunkLoop cfg baseline t0 polls s0 = (s, .stableBreak) →
      s.last ≠ [] ∧ ∃ p ∈ polls, cfg.STABLE_MS ≤ p.1 - s.lastChangeAt := by
  induction polls with
  | nil =>
    intro s0 s h
    simp [chunkLoop] at h
  | cons p rest ih =>
    obtain ⟨t, snap⟩ := p
    intro s0 s h
    by_cases ht : t - t0 < cfg.MAX_ANSWER_MS
    · rw [show chunkLoop cfg baseline t0 ((t, snap) :: rest) s0 =
          match chunkStep cfg baseline t snap s0 with
          | (s', true) => (s', .stableBreak)
          | (s', false) => chunkLoop cfg baseline t0 rest s'
        from by simp [chunkLoop, ht]] at h
      rcases hstep : chunkStep cfg baseline t snap s0 with ⟨s', brk⟩
      rw [hstep] at h
      cases brk
      · obtain ⟨h1, q, hq, h2⟩ := ih s' s h
        exact ⟨h1, q, List.mem_cons_of_mem _ hq, h2⟩
      · cases h
        obtain ⟨h1, h2⟩ := chunkStep_break_cond cfg baseline t snap s0 s hstep
        exact ⟨h1, (t, snap), List.mem_cons_self _ _, h2⟩
    · rw [show chunkLoop cfg baseline t0 ((t, snap) :: rest) s0 = (s0, .timedOut)
        from by simp [chunkLoop, ht]] at h
      cases h

/-- C2 (amended): the stability completion of the aggregate capture
`waitForFinalAnswer` happens only with non-empty captured text, at a poll
whose segment is not spinning, after `STABLE_MS` without change; the
streaming capture `readAnswerInChunks` breaks on stability only with
non-empty emitted text after `STABLE_MS` without change, but does not
consult the busy/spinning indicator at all. -/
theorem completion_rule (cfg : Cfg) (baseline t0 : Nat)
    (polls : List (Nat × List Segment)) :
    (∀ s : FinalSt,
      finalLoop cfg baseline t0 polls ⟨[], t0, false⟩ = (s, .stable) →
      (waitForFinalAnswer cfg baseline t0 polls).1 = .ok s.lastText ∧
      s.lastText ≠ [] ∧
      ∃ p ∈ polls, (getBubbleState p.2 baseline).spinning = false ∧
        cfg.STABLE_MS ≤ p.1 - s.lastChangeAt) ∧
    (∀ s : ChunkSt,
      chunkLoop cfg baseline t0 polls ⟨[], t0, []⟩ = (s, .stableBreak) →
      s.last ≠ [] ∧ ∃ p ∈ polls, cfg.STABLE_MS ≤ p.1 - s.lastChangeAt) := by
  constructor
  · intro s h
    obtain ⟨h1, h2⟩ := finalLoop_stable cfg baseline t0 polls _ s (by simp) h
    refine ⟨?_, h1, h2⟩
    unfold waitForFinalAnswer
    rw [h]
  · intro s h
    exact chunkLoop_stableBreak cfg baseline t0 polls _ s h

/-- C2 counterexample: the streaming capture loop declares completion via
its stability break on a trace whose segment reports `spinning = true` on
every poll — completion is not conditioned on the busy indicator being
false, contrary to the claim for `readAnswerInChunks`. -/
theorem completion_rule_counterexample :
    chunkLoop defaultCfg 0 0
        [(100, [⟨"Hello".data, true⟩]), (1300, [⟨"Hello".data, true⟩])]
        ⟨[], 0, []⟩ =
      (⟨"Hello".data, 100, ["Hello".data]⟩, .stableBreak) ∧
    ∀ p ∈ [(100, [Segment.mk "Hello".data true]),
           (1300, [Segment.mk "Hello".data true])],
      ∀ seg ∈ p.2, seg.spinning = true := by decide

/-- Witness for C2 at concrete stable runs of both captures. -/
theorem completion_rule_witness :
    ((waitForFinalAnswer defaultCfg 0 0
        [(10, [⟨"Hello!!".data, false⟩]), (1210, [⟨"Hello!!".data, false⟩])]).1 =
        .ok "Hello!!".data ∧
      "Hello!!".data ≠ ([] : List Char) ∧
      ∃ p ∈ [(10, [Segment.mk "Hello!!".data false]),
             (1210, [Segment.mk "Hello!!".data false])],
        (getBubbleState p.2 0).spinning = false ∧ defaultCfg.STABLE_MS ≤ p.1 - 10) ∧
    ("Hello!!".data ≠ ([] : List Char) ∧
      ∃ p ∈ [(10, [Segment.mk "Hello!!".data true]),
             (1210, [Segment.mk "Hello!!".data true])],
        defaultCfg.STABLE_MS ≤ p.1 - 10) :=
  ⟨(completion_rule defaultCfg 0 0
      [(10, [⟨"Hello!!".data, false⟩]), (1210, [⟨"Hello!!".data, false⟩])]).1
      ⟨"Hello!!".data, 10, true⟩ (by decide),
   (completion_rule defaultCfg 0 0
      [(10, [⟨"Hello!!".data, true⟩]), (1210, [⟨"Hello!!".data, true⟩])]).2
      ⟨"Hello!!".data, 10, ["Hello!!".data]⟩ (by decide)⟩

/-- C3 (amended): in the streaming capture step, a poll whose filtered text
is not longer than the already-emitted text emits nothing and leaves the
state unchanged; the emitted delta list only ever grows; and when the
filtered text properly extends the emitted text the emitted delta is exactly
the new suffix, preserving "concatenation of deltas = emitted text".  (The
source skips on `length`, not on the prefix relation — see the
counterexample.) -/
theorem monotonic_append (cfg : Cfg) (baseline t : Nat) (snap : List Segment)
    (s : ChunkSt) :
    ((cleanChunk (grabAnswerText snap baseline)).length ≤ s.last.length →
      (chunkStep cfg baseline t snap s).1 = s) ∧
    (∃ tail, ((chunkStep cfg baseline t snap s).1).out = s.out ++ tail) ∧
    (s.last.isPrefixOf (cleanChunk (grabAnswerText snap baseline)) = true →
     s.last.length < (cleanChunk (grabAnswerText snap baseline)).length →
     isPlaceholderText (cleanChunk (grabAnswerText snap baseline)) = false →
     (chunkStep cfg baseline t snap s).1 =
       ⟨cleanChunk (grabAnswerText snap baseline), t,
        s.out ++ [(cleanChunk (grabAnswerText snap baseline)).drop s.last.length]⟩ ∧
     s.last ++ (cleanChunk (grabAnswerText snap baseline)).drop s.last.length =
       cleanChunk (grabAnswerText snap baseline) ∧
     (s.out.flatten = s.last →
       ((chunkStep cfg baseline t snap s).1).out.flatten =
         ((chunkStep cfg baseline t snap s).1).last)) := by
  by_cases hraw : grabAnswerText snap baseline = []
  · have hcur : cleanChunk (grabAnswerText snap baseline) = [] := by rw [hraw]; rfl
    refine ⟨fun _ => by simp [chunkStep, hraw], ⟨[], by simp [chunkStep, hraw]⟩, ?_⟩
    intro _ hlt _
    rw [hcur] at hlt
    simp at hlt
  · refine ⟨?_, ?_, ?_⟩
    · intro hle
      have hd : (cleanChunk (grabAnswerText snap baseline)).drop s.last.length = [] :=
        List.drop_eq_nil_of_le hle
      by_cases hcond : cleanChunk (grabAnswerText snap baseline) ≠ [] ∧
          isPlaceholderText (cleanChunk (grabAnswerText snap baseline)) = false ∧
          cleanChunk (grabAnswerText snap baseline) ≠ s.last
      · simp [chunkStep, hraw, hcond, hd]
      · simp [chunkStep, hraw, hcond]
    · by_cases hcond : cleanChunk (grabAnswerText snap baseline) ≠ [] ∧
          isPlaceholderText (cleanChunk (grabAnswerText snap baseline)) = false ∧
          cleanChunk (grabAnswerText snap baseline) ≠ s.last
      · by_cases hdelta :
            (cleanChunk (grabAnswerText snap baseline)).drop s.last.length = []
        · exact ⟨[], by simp [chunkStep, hraw, hcond, hdelta]⟩
        · exact ⟨[(cleanChunk (grabAnswerText snap baseline)).drop s.last.length],
            by simp [chunkStep, hraw, hcond, hdelta]⟩
      · exact ⟨[], by simp [chunkStep, hraw, hcond]⟩
    · intro hpre hlt hph
      have hne : cleanChunk (grabAnswerText snap baseline) ≠ [] := by
        intro e
        rw [e] at hlt
        simp at hlt
      have hnee : cleanChunk (grabAnswerText snap baseline) ≠ s.last := by
        intro e
        rw [e] at hlt
        omega
      have hdelta :
          (cleanChunk (grabAnswerText snap baseline)).drop s.last.length ≠ [] := by
        intro e
        have := congrArg List.length e
        simp [List.length_drop] at this
        omega
      have hstep : (chunkStep cfg baseline t snap s).1 =
          ⟨cleanChunk (grabAnswerText snap baseline), t,
           s.out ++ [(cleanChunk (grabAnswerText snap baseline)).drop s.last.length]⟩ := by
        simp [chunkStep, hraw, hne, hph, hnee, hdelta]
      have happ : s.last ++ (cleanChunk (grabAnswerText snap baseline)).drop s.last.length =
          cleanChunk (grabAnswerText snap baseline) := by
        have hp : s.last <+: cleanChunk (grabAnswerText snap baseline) :=
          List.isPrefixOf_iff_prefix.mp hpre
        conv_rhs => rw [← List.take_append_drop s.last.length
          (cleanChunk (grabAnswerText snap baseline))]
        rw [← List.prefix_iff_eq_take.mp hp]
      refine ⟨hstep, happ, ?_⟩
      intro hflat
      rw [hstep]
      simp [List.flatten_append, hflat, happ]

/-- C3 counterexample: a second poll whose filtered text (`"Howdy!"`) is not
an extension of the emitted text (`"Hello"`) but is longer still emits the
length-suffix `"!"`, so after it the concatenation of emitted deltas
(`"Hello!"`) differs from the current emitted text (`"Howdy!"`). -/
theorem monotonic_append_counterexample :
    chunkLoop defaultCfg 0 0
        [(100, [⟨"Hello".data, false⟩]), (200, [⟨"Howdy!".data, false⟩])]
        ⟨[], 0, []⟩ =
      (⟨"Howdy!".data, 200, ["Hello".data, "!".data]⟩, .outOfPolls) ∧
    "Hello".data.isPrefixOf "Howdy!".data = false ∧
    (["Hello".data, "!".data] : List (List Char)).flatten ≠ "Howdy!".data := by
  decide

/-- Witness for C3: a skipped short poll and an extending poll. -/
theorem monotonic_append_witness :
    ((chunkStep defaultCfg 0 50 [⟨"Hi".data, false⟩]
        ⟨"Hello".data, 0, ["Hello".data]⟩).1 = ⟨"Hello".data, 0, ["Hello".data]⟩) ∧
    ((chunkStep defaultCfg 0 50 [⟨"Hello world".data, false⟩]
        ⟨"Hello".data, 0, ["Hello".data]⟩).1 =
      ⟨"Hello world".data, 50, ["Hello".data, " world".data]⟩ ∧
     "Hello".data ++ " world".data = "Hello world".data ∧
     ((["Hello".data] : List (List Char)).flatten = "Hello".data →
       ((chunkStep defaultCfg 0 50 [⟨"Hello world".data, false⟩]
          ⟨"Hello".data, 0, ["Hello".data]⟩).1).out.flatten =
       ((chunkStep defaultCfg 0 50 [⟨"Hello world".data, false⟩]
          ⟨"Hello".data, 0, ["Hello".data]⟩).1).last)) :=
  ⟨(monotonic_append defaultCfg 0 50 [⟨"Hi".data, false⟩]
      ⟨"Hello".data, 0, ["Hello".data]⟩).1 (by decide),
   by
    have h := (monotonic_append defaultCfg 0 50 [⟨"Hello world".data, false⟩]
      ⟨"Hello".data, 0, ["Hello".data]⟩).2.2 (by decide) (by decide) (by decide)
    exact ⟨h.1, h.2.1, fun _ => h.2.2 (by decide)⟩⟩

/-- C7 (amended): in the aggregate capture `waitForFinalAnswer`, any poll
observing a changed non-empty filtered text of length ≤ 5 while the segment
is not spinning returns that text immediately, without waiting for
`STABLE_MS`; run from the start, such a first poll ends the whole capture
with the short-reply exit.  The streaming capture has no such short-circuit
(see the counterexample). -/
theorem short_reply_law (cfg : Cfg) (baseline t : Nat) (snap : List Segment)
    (s : FinalSt)
    (h1 : cleanFinal (getBubbleState snap baseline).text ≠ [])
    (h2 : cleanFinal (getBubbleState snap baseline).text ≠ s.lastText)
    (h3 : (cleanFinal (getBubbleState snap baseline).text).length ≤ 5)
    (h4 : (getBubbleState snap baseline).spinning = false) :
    finalStep cfg baseline t snap s =
      .done ⟨cleanFinal (getBubbleState snap baseline).text, t, true⟩ .shortReply ∧
    (∀ (t0 : Nat) (rest : List (Nat × List Segment)), t - t0 < cfg.MAX_ANSWER_MS →
      waitForFinalAnswer cfg baseline t0 ((t, snap) :: rest) =
        (.ok (cleanFinal (getBubbleState snap baseline).text), .shortReply)) := by
  have hstep : finalStep cfg baseline t snap s =
      .done ⟨cleanFinal (getBubbleState snap baseline).text, t, true⟩ .shortReply := by
    simp [finalStep, h1, h2, h3, h4]
  refine ⟨hstep, ?_⟩
  intro t0 rest ht
  have hstep0 : finalStep cfg baseline t snap ⟨[], t0, false⟩ =
      .done ⟨cleanFinal (getBubbleState snap baseline).text, t, true⟩ .shortReply := by
    simp [finalStep, h1, h3, h4]
  unfold waitForFinalAnswer
  rw [show finalLoop cfg baseline t0 ((t, snap) :: rest) ⟨[], t0, false⟩ =
      (⟨cleanFinal (getBubbleState snap baseline).text, t, true⟩, .shortReply)
    from by simp [finalLoop, ht, hstep0]]

/-- C7 counterexample: the very first streaming poll observes `"Hi"`
(length 2 ≤ 5) with no spinner, yet `readAnswerInChunks` does not complete
on that poll — its loop continues (no break), so the short-reply law does
not hold for the streaming capture. -/
theorem short_reply_law_counterexample :
    cleanChunk (grabAnswerText [⟨"Hi".data, false⟩] 0) = "Hi".data ∧
    ("Hi".data).length ≤ 5 ∧
    (getBubbleState [⟨"Hi".data, false⟩] 0).spinning = false ∧
    chunkStep defaultCfg 0 100 [⟨"Hi".data, false⟩] ⟨[], 0, []⟩ =
      (⟨"Hi".data, 100, ["Hi".data]⟩, false) ∧
    chunkLoop defaultCfg 0 0 [(100, [⟨"Hi".data, false⟩])] ⟨[], 0, []⟩ =
      (⟨"Hi".data, 100, ["Hi".data]⟩, .outOfPolls) := by decide

/-- Witness for C7: a first poll carrying `"Hi!"` with no spinner. -/
theorem short_reply_law_witness :
    finalStep defaultCfg 0 50 [⟨"Hi!".data, false⟩] ⟨[], 0, false⟩ =
      .done ⟨"Hi!".data, 50, true⟩ .shortReply ∧
    waitForFinalAnswer defaultCfg 0 0 [(50, [⟨"Hi!".data, false⟩])] =
      (.ok "Hi!".data, .shortReply) :=
  ⟨(short_reply_law defaultCfg 0 50 [⟨"Hi!".data, false⟩] ⟨[], 0, false⟩
      (by decide) (by decide) (by decide) (by decide)).1,
   (short_reply_law defaultCfg 0 50 [⟨"Hi!".data, false⟩] ⟨[], 0, false⟩
      (by decide) (by decide) (by decide) (by decide)).2 0 [] (by decide)⟩

/-- C8 counterexample: the noise filter does not reduce `"OK."` to `"OK"`
(it is neither ellipsis-only nor a placeholder), so the capture stream emits
the spurious delta `"."` for the trailing punctuation. -/
theorem placeholder_filter_counterexample :
    cleanChunk "OK.".data = "OK.".data ∧
    cleanChunk "OK.".data ≠ "OK".data ∧
    isPlaceholderText "OK.".data = false ∧
    (readAnswerInChunks defaultCfg 0 0
        [(100, [⟨"OK".data, false⟩]), (200, [⟨"OK.".data, false⟩])]
        [⟨"OK.".data, false⟩]).1 = ["OK".data, ".".data] := by decide

/-- C8 (amended): for the raw sequence `"OK"` then `"OK."`, the filter
leaves both texts unchanged and neither is placeholder-filtered, so the
stream emits `"OK"` then the delta `"."`; only a text consisting purely of
dots/ellipsis/whitespace is treated as placeholder noise. -/
theorem placeholder_filter_scenario :
    cleanChunk "OK".data = "OK".data ∧
    cleanChunk "OK.".data = "OK.".data ∧
    isPlaceholderText "OK".data = false ∧
    isPlaceholderText "OK.".data = false ∧
    isPlaceholderText "...".data = true ∧
    isPlaceholderText "\u2026".data = true ∧
    isPlaceholderText ". . .".data = true ∧
    (readAnswerInChunks defaultCfg 0 0
        [(100, [⟨"OK".data, false⟩]), (200, [⟨"OK.".data, false⟩])]
        [⟨"OK.".data, false⟩]).1 = ["OK".data, ".".data] := by decide

end KiloProxy
